import Mathlib

/-!
Verification of the assistant-response extraction routine of the
SageAlpha backend (src/main/app.py, function extract_assistant_response,
lines 201-256).

The routine is dynamically typed Python.  We embed the fragment of the
Python value universe that the routine inspects as the inductive type
PyVal: the None singleton, booleans, integers, strings, lists,
dictionaries with string keys, and generic attribute-bearing objects
(the SDK message objects).  Attribute access, truthiness, iteration,
equality against a string literal, the str() conversion and the
subscript x[:50] used in a diagnostic f-string are modelled as total
functions or Except computations, mirroring CPython behaviour on these
constructors.  The extractor itself is translated statement by
statement; the outer try/except of the source becomes the final match
that converts any internal exception into the absent result.
-/

/-- Python values, restricted to the constructors the routine inspects.
Generic objects carry an attribute table (SDK message objects). -/
inductive PyVal where
  | none
  | bool (b : Bool)
  | int (n : Int)
  | str (s : String)
  | list (xs : List PyVal)
  | dict (kvs : List (String × PyVal))
  | obj (attrs : List (String × PyVal))

/-- Python exceptions that the modelled operations can raise. -/
inductive PyErr where
  | attributeError
  | typeError
deriving DecidableEq, Repr

/-- Attribute access, msg.name.  Only generic objects expose the
attribute names the routine asks for (role, content, text_messages,
text, value); on every other constructor these lookups raise
AttributeError in CPython, since dict keys are not attributes and the
built-in types carry none of these names. -/
def pyGetAttr (v : PyVal) (name : String) : Except PyErr PyVal :=
  match v with
  | .obj attrs =>
    match attrs.lookup name with
    | some a => .ok a
    | Option.none => .error .attributeError
  | _ => .error .attributeError

/-- hasattr(v, name): true when attribute access succeeds. -/
def pyHasAttr (v : PyVal) (name : String) : Bool :=
  match pyGetAttr v name with
  | .ok _ => true
  | .error _ => false

/-- Python truthiness: None, False, 0, the empty string and empty
containers are falsy; generic objects are truthy. -/
def pyTruthy : PyVal → Bool
  | .none => false
  | .bool b => b
  | .int n => !(n == 0)
  | .str s => !(s == "")
  | .list xs => !xs.isEmpty
  | .dict kvs => !kvs.isEmpty
  | .obj _ => true

/-- Python equality of a value against a string literal.  Between a
string and any non-string built-in this is False, never an error. -/
def pyEqStr (v : PyVal) (s : String) : Bool :=
  match v with
  | .str t => t == s
  | _ => false

/-- dict.get(key): the stored value, or None when the key is absent. -/
def pyGet (kvs : List (String × PyVal)) (k : String) : PyVal :=
  (kvs.lookup k).getD PyVal.none

/-- Whether x[:50] evaluates without a TypeError: strings and lists are
sliceable, the other modelled constructors are not subscriptable. -/
def pySliceOk : PyVal → Bool
  | .str _ => true
  | .list _ => true
  | _ => false

/-- Iteration, for x in v: lists yield their elements, strings their
one-character substrings, dicts their keys; the rest raise TypeError. -/
def pyIter : PyVal → Except PyErr (List PyVal)
  | .list xs => .ok xs
  | .str s => .ok (s.data.map (fun c => PyVal.str (String.mk [c])))
  | .dict kvs => .ok (kvs.map (fun kv => PyVal.str kv.fst))
  | _ => .error .typeError

mutual
/-- Python repr of a value.  String escaping inside repr and the
address-bearing default repr of generic objects are not exercised by
any theorem below; the object case is a fixed placeholder for the
address-dependent text. -/
def pyRepr : PyVal → String
  | .none => "None"
  | .bool b => if b then "True" else "False"
  | .int n => toString n
  | .str s =>
    String.singleton (Char.ofNat 39) ++ s ++ String.singleton (Char.ofNat 39)
  | .list xs => "[" ++ pyReprList xs ++ "]"
  | .dict kvs => "\x7b" ++ pyReprDict kvs ++ "\x7d"
  | .obj _ => "<object>"

/-- Comma-separated reprs of list elements. -/
def pyReprList : List PyVal → String
  | [] => ""
  | [x] => pyRepr x
  | x :: xs => pyRepr x ++ ", " ++ pyReprList xs

/-- Comma-separated key: value reprs of dict entries. -/
def pyReprDict : List (String × PyVal) → String
  | [] => ""
  | [kv] =>
    String.singleton (Char.ofNat 39) ++ kv.fst ++ String.singleton (Char.ofNat 39)
      ++ ": " ++ pyRepr kv.snd
  | kv :: kvs =>
    String.singleton (Char.ofNat 39) ++ kv.fst ++ String.singleton (Char.ofNat 39)
      ++ ": " ++ pyRepr kv.snd ++ ", " ++ pyReprDict kvs
end

/-- Python str() conversion: identity on strings, repr elsewhere. -/
def pyStr : PyVal → String
  | .str s => s
  | v => pyRepr v

/-!
The extractor, translated from app.py lines 206-256.  Each format of
the source decision tree becomes one definition; stepMsg chains them in
source order for a single message, extractLoop is the for-loop over
messages, and extract_assistant_response is the outer try/except.
-/

/-- Format 1 inner loop (app.py lines 215-222): scan content blocks in
order; the first dict block whose type equals the string text and whose
text entry is a dict containing a value key returns that value.  The
diagnostic f-string on line 221 evaluates response_text[:50] before
returning, so a non-sliceable value raises TypeError here. -/
def scanBlocks : List PyVal → Except PyErr (Option PyVal)
  | [] => .ok Option.none
  | item :: rest =>
    match item with
    | .dict kvs =>
      if pyEqStr (pyGet kvs "type") "text" then
        match pyGet kvs "text" with
        | .dict tkvs =>
          match tkvs.lookup "value" with
          | some v =>
            if pySliceOk v then .ok (some v) else .error .typeError
          | Option.none => scanBlocks rest
        | _ => scanBlocks rest
      else scanBlocks rest
    | _ => scanBlocks rest

/-- Format 1 guard (app.py line 213): content participates only when it
is a list. -/
def tryBlocks (content : PyVal) : Except PyErr (Option PyVal) :=
  match content with
  | .list items => scanBlocks items
  | _ => .ok Option.none

/-- Format 2 (app.py lines 225-227): string content is returned as-is. -/
def tryString (content : PyVal) : Option PyVal :=
  match content with
  | .str s => some (PyVal.str s)
  | _ => Option.none

/-- Format 3 loop body (app.py lines 233-239), for one element of
text_messages: an element with a truthy value attribute yields str of
it; the and of line 233 short-circuits, so an element whose value
attribute is missing or falsy falls to the elif of line 235, and an
element with a text attribute then always yields str of text.value
when that attribute exists, else str of text; an element with neither
attribute yields nothing and the loop continues.  No branch of the
body can raise: every attribute probe is hasattr-guarded and str is
total. -/
def tmValue (tm : PyVal) : Option PyVal :=
  match pyGetAttr tm "value" with
  | .ok v =>
    if pyTruthy v then some (PyVal.str (pyStr v))
    else
      match pyGetAttr tm "text" with
      | .ok t =>
        match pyGetAttr t "value" with
        | .ok tv => some (PyVal.str (pyStr tv))
        | .error _ => some (PyVal.str (pyStr t))
      | .error _ => Option.none
  | .error _ =>
    match pyGetAttr tm "text" with
    | .ok t =>
      match pyGetAttr t "value" with
      | .ok tv => some (PyVal.str (pyStr tv))
      | .error _ => some (PyVal.str (pyStr t))
    | .error _ => Option.none

/-- Format 3 inner loop (app.py lines 232-239): scan text_messages in
order, returning at the first element whose body (tmValue) yields
text and skipping the others. -/
def scanTextMessages : List PyVal → Except PyErr (Option PyVal)
  | [] => .ok Option.none
  | tm :: rest =>
    match tmValue tm with
    | some v => .ok (some v)
    | Option.none => scanTextMessages rest

/-- Format 3 guard (app.py line 230): the message must expose a truthy
text_messages attribute; iterating a non-iterable value raises. -/
def tryTextMessages (msg : PyVal) : Except PyErr (Option PyVal) :=
  match pyGetAttr msg "text_messages" with
  | .ok tms =>
    if pyTruthy tms then
      match pyIter tms with
      | .ok elems => scanTextMessages elems
      | .error e => .error e
    else .ok Option.none
  | .error _ => .ok Option.none

/-- Format 4 (app.py lines 242-249): a truthy text attribute yields its
value entry when it is a dict with a value key, else str of its value
attribute, else str of itself. -/
def tryText (msg : PyVal) : Option PyVal :=
  match pyGetAttr msg "text" with
  | .ok t =>
    if pyTruthy t then
      match t with
      | .dict kvs =>
        match kvs.lookup "value" with
        | some v => some v
        | Option.none => some (PyVal.str (pyStr t))
      | _ =>
        match pyGetAttr t "value" with
        | .ok tv => some (PyVal.str (pyStr tv))
        | .error _ => some (PyVal.str (pyStr t))
    else Option.none
  | .error _ => Option.none

/-- Processing of one assistant message (app.py lines 209-249): fetch
content once (line 213 raises AttributeError when it is absent), then
try the four formats in source order; an ok Option.none result means
the message yielded nothing and the outer loop continues. -/
def stepMsg (msg : PyVal) : Except PyErr (Option PyVal) :=
  match pyGetAttr msg "content" with
  | .error e => .error e
  | .ok content =>
    match tryBlocks content with
    | .error e => .error e
    | .ok (some v) => .ok (some v)
    | .ok Option.none =>
      match tryString content with
      | some v => .ok (some v)
      | Option.none =>
        match tryTextMessages msg with
        | .error e => .error e
        | .ok (some v) => .ok (some v)
        | .ok Option.none => .ok (tryText msg)

/-- The message loop (app.py lines 207-252): messages whose role
attribute is not the string assistant are skipped; an assistant message
is processed and, when it yields nothing, the scan continues with the
remaining messages.  Exhausting the sequence returns None. -/
def extractLoop : List PyVal → Except PyErr (Option PyVal)
  | [] => .ok Option.none
  | msg :: rest =>
    match pyGetAttr msg "role" with
    | .error e => .error e
    | .ok r =>
      if pyEqStr r "assistant" then
        match stepMsg msg with
        | .error e => .error e
        | .ok (some v) => .ok (some v)
        | .ok Option.none => extractLoop rest
      else extractLoop rest

/-- extract_assistant_response (app.py lines 201-256): the outer
try/except converts every internal exception into the absent result. -/
def extract_assistant_response (messages : List PyVal) : Option PyVal :=
  match extractLoop messages with
  | .ok r => r
  | .error _ => Option.none

/-- ASCII lowercasing on the character list, used to state that a role
string differs from the literal assistant only in letter case. -/
def lowerString (s : String) : String := String.mk (s.data.map Char.toLower)

/-- The value exposed by one content block, read off exactly as the
format 1 loop body does: a dict block whose type entry equals the
string text and whose text entry is a dict with a value key exposes
that value; every other block exposes nothing. -/
def blockValue : PyVal → Option PyVal
  | .dict kvs =>
    if pyEqStr (pyGet kvs "type") "text" then
      match pyGet kvs "text" with
      | .dict tkvs => List.lookup "value" tkvs
      | _ => Option.none
    else Option.none
  | _ => Option.none

/-!
Helper lemmas.  The unfolding equations below hold by definitional
reduction: the attribute tables of the concrete message shapes are
literal association lists, so attribute lookup, the role comparison and
the format guards all reduce, leaving only the genuinely opaque
sub-computations as match scrutinees.
-/

/-- Unfolding of the message loop at a cons cell. -/
theorem extractLoop_cons (m : PyVal) (rest : List PyVal) :
    extractLoop (m :: rest) =
      (match pyGetAttr m "role" with
       | Except.error e => Except.error e
       | Except.ok r =>
         if pyEqStr r "assistant" then
           match stepMsg m with
           | Except.error e => Except.error e
           | Except.ok (some v) => Except.ok (some v)
           | Except.ok Option.none => extractLoop rest
         else extractLoop rest) := rfl

/-- On an assistant message whose content is a list, the step reduces
to the block scan: a list is not a string, and this message shape has
neither text_messages nor text attributes. -/
theorem stepMsg_assistant_list (L : List PyVal) :
    stepMsg (PyVal.obj [("role", PyVal.str "assistant"), ("content", PyVal.list L)]) =
      (match scanBlocks L with
       | Except.error e => Except.error e
       | Except.ok (some v) => Except.ok (some v)
       | Except.ok Option.none => Except.ok Option.none) := rfl

/-- On an assistant message whose only payload attribute is text, the
step reduces to format 4. -/
theorem stepMsg_text_only (t : PyVal) :
    stepMsg (PyVal.obj [("role", PyVal.str "assistant"), ("content", PyVal.none),
        ("text", t)]) =
      Except.ok (tryText (PyVal.obj [("role", PyVal.str "assistant"),
        ("content", PyVal.none), ("text", t)])) := rfl

/-- Format 4 on a dict-valued text attribute: subject to truthiness,
the value entry is returned raw when present, else the dict itself is
stringified (a dict exposes no value attribute). -/
theorem tryText_text_dict (kvs : List (String × PyVal)) :
    tryText (PyVal.obj [("role", PyVal.str "assistant"), ("content", PyVal.none),
        ("text", PyVal.dict kvs)]) =
      (if pyTruthy (PyVal.dict kvs) then
        match List.lookup "value" kvs with
        | some v => some v
        | Option.none => some (PyVal.str (pyStr (PyVal.dict kvs)))
      else Option.none) := rfl

/-- Equality against a string literal holds only for that string. -/
theorem pyEqStr_eq (v : PyVal) (s : String) (h : pyEqStr v s = true) :
    v = PyVal.str s := by
  cases v <;> simp_all [pyEqStr]

/-- Characterization of the block scan at a cons cell through
blockValue: a block exposing a value returns it when it is sliceable
and raises otherwise; a block exposing nothing is skipped. -/
theorem scanBlocks_cons (x : PyVal) (l : List PyVal) :
    scanBlocks (x :: l) =
      (match blockValue x with
       | some v => if pySliceOk v then Except.ok (some v) else Except.error PyErr.typeError
       | Option.none => scanBlocks l) := by
  cases x with
  | dict kvs =>
    simp only [scanBlocks, blockValue]
    split_ifs with hif
    · cases hpg : pyGet kvs "text" <;> simp only [hpg]
    · rfl
  | none => rfl
  | bool b => rfl
  | int n => rfl
  | str s => rfl
  | list xs => rfl
  | obj attrs => rfl

/-- Blocks exposing nothing are skipped by the scan. -/
theorem scanBlocks_cons_none (x : PyVal) (l : List PyVal)
    (h : blockValue x = Option.none) : scanBlocks (x :: l) = scanBlocks l := by
  rw [scanBlocks_cons, h]

/-- A block exposing a string value stops the scan and returns it. -/
theorem scanBlocks_cons_str (x : PyVal) (l : List PyVal) (s : String)
    (h : blockValue x = some (PyVal.str s)) :
    scanBlocks (x :: l) = Except.ok (some (PyVal.str s)) := by
  rw [scanBlocks_cons, h]
  rfl

/-- A prefix of blocks exposing nothing does not affect the scan. -/
theorem scanBlocks_append_none (pre l : List PyVal)
    (h : ∀ x ∈ pre, blockValue x = Option.none) :
    scanBlocks (pre ++ l) = scanBlocks l := by
  induction pre with
  | nil => rfl
  | cons x rest ih =>
    rw [List.cons_append, scanBlocks_cons_none x _ (h x (List.mem_cons_self x rest)),
      ih (fun y hy => h y (List.mem_cons_of_mem x hy))]

/-- Characterization of the legacy list scan at a cons cell through
tmValue: the first element yielding text stops the scan, an element
yielding nothing is skipped. -/
theorem scanTextMessages_cons (tm : PyVal) (l : List PyVal) :
    scanTextMessages (tm :: l) =
      (match tmValue tm with
       | some v => Except.ok (some v)
       | Option.none => scanTextMessages l) := rfl

/-- Elements yielding nothing are skipped by the legacy list scan. -/
theorem scanTextMessages_cons_none (tm : PyVal) (l : List PyVal)
    (h : tmValue tm = Option.none) :
    scanTextMessages (tm :: l) = scanTextMessages l := by
  rw [scanTextMessages_cons, h]

/-- An element yielding text stops the legacy list scan. -/
theorem scanTextMessages_cons_some (tm : PyVal) (l : List PyVal) (v : PyVal)
    (h : tmValue tm = some v) :
    scanTextMessages (tm :: l) = Except.ok (some v) := by
  rw [scanTextMessages_cons, h]

/-- A prefix of elements yielding nothing does not affect the scan. -/
theorem scanTextMessages_append_none (pre l : List PyVal)
    (h : ∀ x ∈ pre, tmValue x = Option.none) :
    scanTextMessages (pre ++ l) = scanTextMessages l := by
  induction pre with
  | nil => rfl
  | cons x rest ih =>
    rw [List.cons_append,
      scanTextMessages_cons_none x _ (h x (List.mem_cons_self x rest)),
      ih (fun y hy => h y (List.mem_cons_of_mem x hy))]

/-- On an assistant message whose only payload attribute besides an
unusable content is a truthy text_messages list, the step reduces to
the legacy list scan (this message shape has no text attribute, so
format 4 yields nothing). -/
theorem stepMsg_text_messages (L : List PyVal) (v : PyVal)
    (htr : pyTruthy (PyVal.list L) = true)
    (hscan : scanTextMessages L = Except.ok (some v)) :
    stepMsg (PyVal.obj [("role", PyVal.str "assistant"), ("content", PyVal.none),
        ("text_messages", PyVal.list L)]) = Except.ok (some v) := by
  have h0 : stepMsg (PyVal.obj [("role", PyVal.str "assistant"), ("content", PyVal.none),
        ("text_messages", PyVal.list L)]) =
      (match tryTextMessages (PyVal.obj [("role", PyVal.str "assistant"),
          ("content", PyVal.none), ("text_messages", PyVal.list L)]) with
       | Except.error e => Except.error e
       | Except.ok (some w) => Except.ok (some w)
       | Except.ok Option.none => Except.ok Option.none) := rfl
  have h1 : tryTextMessages (PyVal.obj [("role", PyVal.str "assistant"),
      ("content", PyVal.none), ("text_messages", PyVal.list L)]) =
      Except.ok (some v) := by
    have h2 : tryTextMessages (PyVal.obj [("role", PyVal.str "assistant"),
        ("content", PyVal.none), ("text_messages", PyVal.list L)]) =
        (if pyTruthy (PyVal.list L) then scanTextMessages L
         else Except.ok Option.none) := rfl
    rw [h2, htr]
    simpa using hscan
  rw [h0, h1]

/-- An association list with a hit on some key is not empty. -/
theorem lookup_isEmpty_false (kvs : List (String × PyVal)) (k : String) (v : PyVal)
    (h : List.lookup k kvs = some v) : kvs.isEmpty = false := by
  cases kvs with
  | nil => simp [List.lookup] at h
  | cons a l => rfl

/-- When no message carries the exact role string assistant, every
message is skipped or the role access raises, and the scan concludes
with the absent result either way. -/
theorem extract_none_of_no_assistant (msgs : List PyVal)
    (h : ∀ m ∈ msgs, pyGetAttr m "role" ≠ Except.ok (PyVal.str "assistant")) :
    extract_assistant_response msgs = Option.none := by
  have key : ∀ l : List PyVal,
      (∀ m ∈ l, pyGetAttr m "role" ≠ Except.ok (PyVal.str "assistant")) →
      extractLoop l = Except.ok Option.none ∨ ∃ e, extractLoop l = Except.error e := by
    intro l
    induction l with
    | nil => exact fun _ => Or.inl rfl
    | cons m rest ih =>
      intro hh
      cases hr : pyGetAttr m "role" with
      | error e =>
        refine Or.inr ⟨e, ?_⟩
        rw [extractLoop_cons, hr]
      | ok r =>
        have hb : pyEqStr r "assistant" = false := by
          cases hb2 : pyEqStr r "assistant"
          · rfl
          · exact absurd (hr.trans (congrArg Except.ok (pyEqStr_eq r "assistant" hb2)))
              (hh m (List.mem_cons_self m rest))
        have hloop : extractLoop (m :: rest) = extractLoop rest := by
          rw [extractLoop_cons, hr]
          simp [hb]
        rw [hloop]
        exact ih (fun x hx => hh x (List.mem_cons_of_mem m hx))
  rcases key msgs h with h1 | ⟨e, h1⟩ <;> unfold extract_assistant_response <;> rw [h1]

/-- A singleton scan returning a value from its assistant message. -/
theorem extract_single_assistant (m : PyVal) (v : PyVal)
    (hrole : pyGetAttr m "role" = Except.ok (PyVal.str "assistant"))
    (hstep : stepMsg m = Except.ok (some v)) :
    extract_assistant_response [m] = some v := by
  unfold extract_assistant_response
  rw [extractLoop_cons, hrole, hstep]
  rfl

/-!
Claim theorems.
-/

/-- C1 counterexample: a first assistant message that yields no text
under any format does not force absence — the source loop continues
with later messages, and here a later assistant message supplies the
result Hi, so the claimed absence fails at this input. -/
theorem c1_counterexample :
    stepMsg (PyVal.obj [("role", PyVal.str "assistant"), ("content", PyVal.none)])
        = Except.ok Option.none
    ∧ extract_assistant_response
        [PyVal.obj [("role", PyVal.str "assistant"), ("content", PyVal.none)],
         PyVal.obj [("role", PyVal.str "assistant"), ("content", PyVal.str "Hi")]]
      = some (PyVal.str "Hi") :=
  ⟨rfl, rfl⟩

/-- C1 (amended): when an assistant message yields no text under any of
the four formats without raising, extraction continues with the
remaining messages unchanged; absence results only when no scanned
message yields text. -/
theorem c1_amended (m : PyVal) (rest : List PyVal)
    (hrole : pyGetAttr m "role" = Except.ok (PyVal.str "assistant"))
    (hstep : stepMsg m = Except.ok Option.none) :
    extract_assistant_response (m :: rest) = extract_assistant_response rest := by
  have h1 : extractLoop (m :: rest) = extractLoop rest := by
    rw [extractLoop_cons, hrole, hstep]
    rfl
  unfold extract_assistant_response
  rw [h1]

/-- C1 witness: the amended skip law applied to a concrete unfruitful
assistant message followed by a user message. -/
theorem c1_amended_witness :
    pyGetAttr (PyVal.obj [("role", PyVal.str "assistant"), ("content", PyVal.none)]) "role"
        = Except.ok (PyVal.str "assistant")
    ∧ stepMsg (PyVal.obj [("role", PyVal.str "assistant"), ("content", PyVal.none)])
        = Except.ok Option.none
    ∧ extract_assistant_response
        [PyVal.obj [("role", PyVal.str "assistant"), ("content", PyVal.none)],
         PyVal.obj [("role", PyVal.str "user"), ("content", PyVal.str "question")]]
      = extract_assistant_response
        [PyVal.obj [("role", PyVal.str "user"), ("content", PyVal.str "question")]] :=
  ⟨rfl, rfl, c1_amended _ _ rfl rfl⟩

/-- C2 counterexample: with text_messages made of the plain mappings of
the claim, extraction returns absence, not the value second, because a
mapping key is not an attribute and neither element qualifies under the
attribute probes of the source loop. -/
theorem c2_counterexample :
    extract_assistant_response
      [PyVal.obj [("role", PyVal.str "assistant"), ("content", PyVal.none),
        ("text_messages", PyVal.list [PyVal.dict [("value", PyVal.str "first")],
          PyVal.dict [("value", PyVal.str "second")]])]]
      = Option.none := rfl

/-- C2 (amended): the legacy list is scanned in order — any prefix of
elements yielding nothing (per tmValue) is skipped and the FIRST
element yielding text determines the result, regardless of the
elements after it; tmValue encodes the full per-element rule of the
source (str of a truthy value attribute, else str of text.value or str
of text for an element with a text attribute, nothing otherwise), and
the trailing conjuncts pin tmValue down on the shapes named by the
amendment: plain mappings and falsy values yield nothing, attribute
elements yield their text through each fallback. -/
theorem c2_amended :
    (∀ (pre post : List PyVal) (tm v : PyVal),
        (∀ x ∈ pre, tmValue x = Option.none) → tmValue tm = some v →
        extract_assistant_response
          [PyVal.obj [("role", PyVal.str "assistant"), ("content", PyVal.none),
            ("text_messages", PyVal.list (pre ++ tm :: post))]]
          = some v)
    ∧ tmValue (PyVal.dict [("value", PyVal.str "only")]) = Option.none
    ∧ tmValue (PyVal.obj [("value", PyVal.str "")]) = Option.none
    ∧ tmValue (PyVal.obj [("value", PyVal.str "first")]) = some (PyVal.str "first")
    ∧ tmValue (PyVal.obj [("text", PyVal.obj [("value", PyVal.str "via")])])
        = some (PyVal.str "via")
    ∧ tmValue (PyVal.obj [("text", PyVal.str "plain")]) = some (PyVal.str "plain") := by
  refine ⟨?_, rfl, rfl, rfl, rfl, rfl⟩
  intro pre post tm v h1 h2
  have htr : pyTruthy (PyVal.list (pre ++ tm :: post)) = true := by
    cases pre <;> rfl
  have hscan : scanTextMessages (pre ++ tm :: post) = Except.ok (some v) := by
    rw [scanTextMessages_append_none pre _ h1,
      scanTextMessages_cons_some tm post v h2]
  refine extract_single_assistant _ _ rfl ?_
  exact stepMsg_text_messages _ _ htr hscan

/-- C2 witness: the universal scan rule applied to a list whose prefix
holds a plain mapping and a falsy-valued element, both skipped, and
whose first qualifying element second is returned in preference to a
later element third — first match, not last. -/
theorem c2_amended_witness :
    (∀ x ∈ [PyVal.dict [("value", PyVal.str "first")],
        PyVal.obj [("value", PyVal.str "")]], tmValue x = Option.none)
    ∧ tmValue (PyVal.obj [("value", PyVal.str "second")]) = some (PyVal.str "second")
    ∧ extract_assistant_response
        [PyVal.obj [("role", PyVal.str "assistant"), ("content", PyVal.none),
          ("text_messages", PyVal.list
            ([PyVal.dict [("value", PyVal.str "first")],
              PyVal.obj [("value", PyVal.str "")]] ++
             PyVal.obj [("value", PyVal.str "second")] ::
             [PyVal.obj [("value", PyVal.str "third")]]))]]
      = some (PyVal.str "second") := by
  have h1 : ∀ x ∈ [PyVal.dict [("value", PyVal.str "first")],
      PyVal.obj [("value", PyVal.str "")]], tmValue x = Option.none := by
    intro x hx
    rcases List.mem_cons.mp hx with h | h
    · subst h; rfl
    · rw [List.mem_singleton] at h; subst h; rfl
  exact ⟨h1, rfl, c2_amended.1 _ _ _ _ h1 rfl⟩

/-- C3 counterexample: an assistant message whose content is the empty
string makes the extractor return the empty string, so the result is
not restricted to non-empty text or absence. -/
theorem c3_counterexample :
    extract_assistant_response
      [PyVal.obj [("role", PyVal.str "assistant"), ("content", PyVal.str "")]]
      = some (PyVal.str "") := rfl

/-- C3 (amended): the result is either an extracted value or absence,
and the extractor does not filter out empty strings: an empty block
value is returned by format 1, and any direct string content, the
empty string included, is returned as-is by format 2. -/
theorem c3_amended :
    extract_assistant_response
      [PyVal.obj [("role", PyVal.str "assistant"),
        ("content", PyVal.list [PyVal.dict [("type", PyVal.str "text"),
          ("text", PyVal.dict [("value", PyVal.str "")])]])]]
      = some (PyVal.str "")
    ∧ ∀ s : String,
        extract_assistant_response
          [PyVal.obj [("role", PyVal.str "assistant"), ("content", PyVal.str s)]]
          = some (PyVal.str s) :=
  ⟨rfl, fun _ => rfl⟩

/-- C4: extraction never lets an exception past its boundary — any
internal error of the traversal is converted to the absent result by
the outer handler — and the malformed message of P8, whose content
blocks are plain numbers, yields absence without raising. -/
theorem c4_exception_confinement :
    (∀ (msgs : List PyVal) (e : PyErr), extractLoop msgs = Except.error e →
        extract_assistant_response msgs = Option.none)
    ∧ extract_assistant_response
        [PyVal.obj [("role", PyVal.str "assistant"),
          ("content", PyVal.list [PyVal.int 1, PyVal.int 2])]]
      = Option.none := by
  refine ⟨?_, rfl⟩
  intro msgs e h
  unfold extract_assistant_response
  rw [h]

/-- C4 witness: a message that is a bare integer raises AttributeError
at the role access, and the extractor converts that to absence. -/
theorem c4_witness :
    extractLoop [PyVal.int 0] = Except.error PyErr.attributeError
    ∧ extract_assistant_response [PyVal.int 0] = Option.none :=
  ⟨rfl, c4_exception_confinement.1 [PyVal.int 0] PyErr.attributeError rfl⟩

/-- C5: when no message of the sequence carries the exact role string
assistant, extraction returns absence; the hypothesis also covers
messages without a readable role, and the empty sequence vacuously. -/
theorem c5_role_filter (msgs : List PyVal)
    (h : ∀ m ∈ msgs, pyGetAttr m "role" ≠ Except.ok (PyVal.str "assistant")) :
    extract_assistant_response msgs = Option.none :=
  extract_none_of_no_assistant msgs h

/-- C5 witness: a sequence with a single user message yields absence. -/
theorem c5_witness :
    (∀ m ∈ [PyVal.obj [("role", PyVal.str "user"), ("content", PyVal.str "Hi")]],
        pyGetAttr m "role" ≠ Except.ok (PyVal.str "assistant"))
    ∧ extract_assistant_response
        [PyVal.obj [("role", PyVal.str "user"), ("content", PyVal.str "Hi")]]
      = Option.none := by
  have hhyp : ∀ m ∈ [PyVal.obj [("role", PyVal.str "user"), ("content", PyVal.str "Hi")]],
      pyGetAttr m "role" ≠ Except.ok (PyVal.str "assistant") := by
    intro m hm
    rw [List.mem_singleton] at hm
    subst hm
    intro hc
    injection hc with h1
    injection h1 with h2
    exact absurd h2 (by decide)
  exact ⟨hhyp, c5_role_filter _ hhyp⟩

/-- C6 counterexample: a first qualifying block whose exposed value is
the number 7 is NOT returned — the diagnostic f-string on line 221
slices the value before the return, a number is not subscriptable, and
the resulting TypeError is converted to absence. -/
theorem c6_counterexample :
    extract_assistant_response
      [PyVal.obj [("role", PyVal.str "assistant"),
        ("content", PyVal.list [PyVal.dict [("type", PyVal.str "text"),
          ("text", PyVal.dict [("value", PyVal.int 7)])]])]]
      = Option.none := rfl

/-- C6 (amended): for list content, the blocks are scanned in order and
the first block with type text whose nested text record exposes a
string value stops the scan, regardless of the blocks after it; blocks
exposing a non-sliceable value instead abort extraction through the
diagnostic slice. -/
theorem c6_amended (pre post : List PyVal) (item : PyVal) (s : String)
    (h1 : ∀ x ∈ pre, blockValue x = Option.none)
    (h2 : blockValue item = some (PyVal.str s)) :
    extract_assistant_response
      [PyVal.obj [("role", PyVal.str "assistant"),
        ("content", PyVal.list (pre ++ item :: post))]]
      = some (PyVal.str s) := by
  have hscan : scanBlocks (pre ++ item :: post) = Except.ok (some (PyVal.str s)) := by
    rw [scanBlocks_append_none pre _ h1, scanBlocks_cons_str item post s h2]
  refine extract_single_assistant _ _ rfl ?_
  rw [stepMsg_assistant_list, hscan]

/-- C6 witness: the Hello block of P3 behind a skipped numeric block
and ahead of an ignored trailing block. -/
theorem c6_witness :
    (∀ x ∈ [PyVal.int 3], blockValue x = Option.none)
    ∧ blockValue (PyVal.dict [("type", PyVal.str "text"),
        ("text", PyVal.dict [("value", PyVal.str "Hello")])])
      = some (PyVal.str "Hello")
    ∧ extract_assistant_response
        [PyVal.obj [("role", PyVal.str "assistant"),
          ("content", PyVal.list ([PyVal.int 3] ++
            PyVal.dict [("type", PyVal.str "text"),
              ("text", PyVal.dict [("value", PyVal.str "Hello")])] :: [PyVal.dict []]))]]
      = some (PyVal.str "Hello") := by
  have h1 : ∀ x ∈ [PyVal.int 3], blockValue x = Option.none := by
    intro x hx
    rw [List.mem_singleton] at hx
    subst hx
    rfl
  exact ⟨h1, rfl, c6_amended _ _ _ _ h1 rfl⟩

/-- C7: string content is returned as-is by format 2, whatever follows
in the sequence; in particular the plain string Hi there is returned
unchanged. -/
theorem c7_direct_string :
    (∀ (s : String) (rest : List PyVal),
      extract_assistant_response
        (PyVal.obj [("role", PyVal.str "assistant"), ("content", PyVal.str s)] :: rest)
        = some (PyVal.str s))
    ∧ extract_assistant_response
        [PyVal.obj [("role", PyVal.str "assistant"), ("content", PyVal.str "Hi there")]]
      = some (PyVal.str "Hi there") :=
  ⟨fun _ _ => rfl, rfl⟩

/-- C8 counterexample: an assistant message carrying only the text
field of P6 and no content attribute at all yields absence, not
Answer42 — line 213 reads msg.content before any fallback runs, the
access raises AttributeError, and the handler converts it. -/
theorem c8_counterexample :
    extract_assistant_response
      [PyVal.obj [("role", PyVal.str "assistant"),
        ("text", PyVal.dict [("value", PyVal.str "Answer42")])]]
      = Option.none := rfl

/-- C8 (amended): provided the message carries a content attribute,
even an unusable one such as None, a non-empty text field is honoured:
a mapping with a value key returns that entry raw, a value attribute is
returned through str, and any other truthy text value is stringified. -/
theorem c8_amended :
    (∀ (kvs : List (String × PyVal)) (v : PyVal), List.lookup "value" kvs = some v →
        extract_assistant_response
          [PyVal.obj [("role", PyVal.str "assistant"), ("content", PyVal.none),
            ("text", PyVal.dict kvs)]]
          = some v)
    ∧ extract_assistant_response
        [PyVal.obj [("role", PyVal.str "assistant"), ("content", PyVal.none),
          ("text", PyVal.obj [("value", PyVal.str "Ans")])]]
      = some (PyVal.str "Ans")
    ∧ extract_assistant_response
        [PyVal.obj [("role", PyVal.str "assistant"), ("content", PyVal.none),
          ("text", PyVal.str "plain")]]
      = some (PyVal.str "plain") := by
  refine ⟨?_, rfl, rfl⟩
  intro kvs v h
  have hne : kvs.isEmpty = false := lookup_isEmpty_false kvs "value" v h
  have htruthy : pyTruthy (PyVal.dict kvs) = true := by simp [pyTruthy, hne]
  refine extract_single_assistant _ _ rfl ?_
  rw [stepMsg_text_only, tryText_text_dict, htruthy, h]
  rfl

/-- C8 witness: the amended dict clause applied to the P6 payload. -/
theorem c8_witness :
    List.lookup "value" [("value", PyVal.str "Answer42")] = some (PyVal.str "Answer42")
    ∧ extract_assistant_response
        [PyVal.obj [("role", PyVal.str "assistant"), ("content", PyVal.none),
          ("text", PyVal.dict [("value", PyVal.str "Answer42")])]]
      = some (PyVal.str "Answer42") :=
  ⟨rfl, c8_amended.1 _ _ rfl⟩

/-- C9: the extractor is a pure function of its input sequence — two
invocations on the same sequence agree. -/
theorem c9_deterministic (msgs : List PyVal) (r1 r2 : Option PyVal)
    (h1 : extract_assistant_response msgs = r1)
    (h2 : extract_assistant_response msgs = r2) : r1 = r2 :=
  h1.symm.trans h2

/-- C9 witness: two evaluations on a one-message sequence agree. -/
theorem c9_witness :
    (some (PyVal.str "twice") : Option PyVal) = some (PyVal.str "twice") :=
  c9_deterministic
    [PyVal.obj [("role", PyVal.str "assistant"), ("content", PyVal.str "twice")]]
    (some (PyVal.str "twice")) (some (PyVal.str "twice")) rfl rfl

/-- C10: role matching is exact and case-sensitive — when every message
carries a role string that differs from assistant only in letter case
(so lowercases to assistant without being it), extraction returns
absence whatever the message contents are. -/
theorem c10_case_sensitive (msgs : List PyVal)
    (h : ∀ m ∈ msgs, ∃ s : String, pyGetAttr m "role" = Except.ok (PyVal.str s)
        ∧ lowerString s = "assistant" ∧ s ≠ "assistant") :
    extract_assistant_response msgs = Option.none := by
  apply extract_none_of_no_assistant
  intro m hm
  obtain ⟨s, hrole, _, hs⟩ := h m hm
  rw [hrole]
  intro hc
  injection hc with h1
  injection h1 with h2
  exact hs h2

/-- C10 witness: a capitalized Assistant role hides string content. -/
theorem c10_witness :
    lowerString "Assistant" = "assistant"
    ∧ ("Assistant" : String) ≠ "assistant"
    ∧ extract_assistant_response
        [PyVal.obj [("role", PyVal.str "Assistant"), ("content", PyVal.str "Hello")]]
      = Option.none := by
  refine ⟨by decide, by decide, ?_⟩
  apply c10_case_sensitive
  intro m hm
  rw [List.mem_singleton] at hm
  subst hm
  exact ⟨"Assistant", rfl, by decide, by decide⟩
